import Mathlib

/-!
Shallow embedding of `tests/pymods/yaml_tools/register_tag.py`: the attribute
normalizer `normalize_attr`, the dual-access record `BaseDictWrapper`, and the
YAML tag-registration helpers (`yaml_map`, `yaml_scalar`,
`yaml_not_available_tag`) together with the PyYAML constructor table they
populate.  Python dicts are modelled as ordered association lists with
update-in-place / append-at-end assignment, Python exceptions as `Except`.
-/

namespace RegisterTag

/-! ### Attribute normalizer

Source: `re_word = re.compile(r'[a-zA-Z0-9_]+')` and
`normalize_attr(string) = '_'.join(re_word.findall(string))`. -/

/-- The character class of the regex `[a-zA-Z0-9_]`. -/
def isWord (c : Char) : Bool :=
  ('a' ≤ c && c ≤ 'z') || ('A' ≤ c && c ≤ 'Z') || ('0' ≤ c && c ≤ '9') || c == '_'

/-- `re_word.findall`: scan left to right collecting the maximal non-overlapping
matches of `[a-zA-Z0-9_]+`, i.e. the maximal runs of word characters.  `acc`
holds the (reversed) run currently being read. -/
def findWordsAux : List Char → List Char → List (List Char)
  | [], acc => if acc.isEmpty then [] else [acc.reverse]
  | c :: rest, acc =>
    if isWord c then findWordsAux rest (c :: acc)
    else if acc.isEmpty then findWordsAux rest []
    else acc.reverse :: findWordsAux rest []

/-- `re_word.findall(string)` on a list of characters. -/
def findWords (l : List Char) : List (List Char) := findWordsAux l []

/-- `'_'.join(re_word.findall(string))` on a list of characters. -/
def normalizeChars (l : List Char) : List Char := List.intercalate ['_'] (findWords l)

/-- `normalize_attr` from the source: join the maximal `[a-zA-Z0-9_]+` runs of
the input with single underscores. -/
def normalize_attr (s : String) : String := ⟨normalizeChars s.data⟩

/-! ### Lemmas about the normalizer -/

theorem intercalate_nil (sep : List Char) :
    List.intercalate sep ([] : List (List Char)) = [] := rfl

theorem intercalate_single (sep a : List Char) : List.intercalate sep [a] = a := by
  simp [List.intercalate]

theorem intercalate_cons₂ (sep a b : List Char) (t : List (List Char)) :
    List.intercalate sep (a :: b :: t) = a ++ sep ++ List.intercalate sep (b :: t) := by
  simp [List.intercalate, List.append_assoc]

/-- Every run produced by `findWordsAux` is non-empty and made of word
characters, provided the accumulator contains only word characters. -/
theorem findWordsAux_runs :
    ∀ (l acc : List Char), acc.all isWord = true →
      ∀ r ∈ findWordsAux l acc, r ≠ [] ∧ r.all isWord = true := by
  intro l
  induction l with
  | nil =>
    intro acc hacc r hr
    cases acc with
    | nil => simp [findWordsAux] at hr
    | cons a as =>
      simp [findWordsAux] at hr
      subst hr
      constructor
      · simp
      · simp only [List.all_append, List.all_reverse, List.all_cons, List.all_nil,
          Bool.and_true, Bool.and_eq_true] at hacc ⊢
        exact ⟨hacc.2, hacc.1⟩
  | cons c rest ih =>
    intro acc hacc r hr
    by_cases hc : isWord c
    · rw [findWordsAux, if_pos hc] at hr
      exact ih (c :: acc) (by simp [hacc, hc]) r hr
    · rw [findWordsAux, if_neg hc] at hr
      cases acc with
      | nil => exact ih [] rfl r hr
      | cons a as =>
        simp at hr
        rcases hr with h | h
        · subst h
          constructor
          · simp
          · simp only [List.all_append, List.all_reverse, List.all_cons, List.all_nil,
              Bool.and_true, Bool.and_eq_true] at hacc ⊢
            exact ⟨hacc.2, hacc.1⟩
        · exact ih [] rfl r h

/-- On an all-word input, `findWordsAux` returns a single run: the accumulator
followed by the whole input. -/
theorem findWordsAux_all_word :
    ∀ (l acc : List Char), l.all isWord = true →
      findWordsAux l acc = if acc.isEmpty && l.isEmpty then [] else [acc.reverse ++ l] := by
  intro l
  induction l with
  | nil =>
    intro acc _
    cases acc with
    | nil => rfl
    | cons a as => simp [findWordsAux]
  | cons c rest ih =>
    intro acc hl
    have hc : isWord c = true := by
      have := List.all_eq_true.mp hl c (List.mem_cons_self c rest)
      simpa using this
    have hrest : rest.all isWord = true := by
      rw [List.all_cons, hc, Bool.true_and] at hl
      exact hl
    rw [findWordsAux, if_pos hc, ih (c :: acc) hrest]
    simp [List.append_assoc]

/-- An all-word non-empty string is a single maximal run. -/
theorem findWords_all_word (l : List Char) (hw : l.all isWord = true) (hne : l ≠ []) :
    findWords l = [l] := by
  rw [findWords, findWordsAux_all_word l [] hw]
  simp [List.isEmpty_iff, hne]

/-- Joining non-empty all-word runs with underscores yields an all-word string
(the separator `_` is itself a word character). -/
theorem intercalate_all_word :
    ∀ rs : List (List Char), (∀ r ∈ rs, r.all isWord = true) →
      (List.intercalate ['_'] rs).all isWord = true := by
  intro rs
  induction rs with
  | nil => intro _; rfl
  | cons a t ih =>
    intro h
    cases t with
    | nil =>
      rw [intercalate_single]
      exact h a (List.mem_cons_self a [])
    | cons b t' =>
      rw [intercalate_cons₂]
      have ha := h a (List.mem_cons_self a (b :: t'))
      have ht := ih (fun r hr => h r (List.mem_cons_of_mem a hr))
      simp only [List.all_append, ha, ht, Bool.and_true, Bool.true_and]
      decide

/-- Joining a non-empty list of non-empty runs gives a non-empty string. -/
theorem intercalate_ne_nil (rs : List (List Char)) (hrs : rs ≠ [])
    (h : ∀ r ∈ rs, r ≠ []) : List.intercalate ['_'] rs ≠ [] := by
  cases rs with
  | nil => exact absurd rfl hrs
  | cons a t =>
    cases t with
    | nil =>
      rw [intercalate_single]
      exact h a (List.mem_cons_self a [])
    | cons b t' =>
      rw [intercalate_cons₂]
      have ha := h a (List.mem_cons_self a (b :: t'))
      simp [List.append_assoc]

/-- Idempotence of the normalizer at the character-list level. -/
theorem normalizeChars_idem (l : List Char) :
    normalizeChars (normalizeChars l) = normalizeChars l := by
  by_cases h : findWords l = []
  · have hl : normalizeChars l = [] := by rw [normalizeChars, h, intercalate_nil]
    rw [hl]
    rfl
  · have runs := findWordsAux_runs l [] rfl
    have hword : (normalizeChars l).all isWord = true :=
      intercalate_all_word (findWords l) (fun r hr => (runs r hr).2)
    have hne : normalizeChars l ≠ [] :=
      intercalate_ne_nil (findWords l) h (fun r hr => (runs r hr).1)
    rw [normalizeChars, findWords_all_word (normalizeChars l) hword hne, intercalate_single]

/-- Generalized correspondence between the scanner `findWordsAux` and the
library decomposition `List.splitOnP`: splitting on non-word characters and
discarding the empty pieces yields exactly the maximal word runs, with the
accumulator prepended to the first piece. -/
theorem findWordsAux_splitOnP :
    ∀ (l acc : List Char),
      findWordsAux l acc
        = (((l.splitOnP fun c => !isWord c).modifyHead fun h => acc.reverse ++ h).filter
            fun r => !r.isEmpty) := by
  intro l
  induction l with
  | nil =>
    intro acc
    rw [List.splitOnP_nil]
    cases acc with
    | nil => rfl
    | cons a as => simp [findWordsAux]
  | cons c rest ih =>
    intro acc
    obtain ⟨h, t, hs⟩ : ∃ h t, (rest.splitOnP fun c => !isWord c) = h :: t := by
      rcases e : rest.splitOnP fun c => !isWord c with _ | ⟨h, t⟩
      · exact absurd e (List.splitOnP_ne_nil _ rest)
      · exact ⟨h, t, rfl⟩
    rw [List.splitOnP_cons]
    by_cases hc : isWord c
    · have hp : (!isWord c) = false := by simp [hc]
      rw [hp]
      rw [findWordsAux, if_pos hc, ih (c :: acc), hs]
      simp [List.append_assoc]
    · have hp : (!isWord c) = true := by simp [hc]
      rw [hp]
      rw [findWordsAux, if_neg hc]
      cases acc with
      | nil =>
        rw [show (if ([] : List Char).isEmpty then findWordsAux rest []
              else ([] : List Char).reverse :: findWordsAux rest []) = findWordsAux rest []
            from rfl]
        rw [ih [], hs]
        simp
      | cons a as =>
        rw [show (if (a :: as).isEmpty then findWordsAux rest []
              else (a :: as).reverse :: findWordsAux rest [])
              = (a :: as).reverse :: findWordsAux rest [] from rfl]
        rw [ih [], hs]
        simp

/-- `re_word.findall` is the `splitOnP` decomposition with empty pieces
discarded: the maximal runs of word characters, in order. -/
theorem findWords_splitOnP (l : List Char) :
    findWords l = ((l.splitOnP fun c => !isWord c).filter fun r => !r.isEmpty) := by
  obtain ⟨h, t, hs⟩ : ∃ h t, (l.splitOnP fun c => !isWord c) = h :: t := by
    rcases e : l.splitOnP fun c => !isWord c with _ | ⟨h, t⟩
    · exact absurd e (List.splitOnP_ne_nil _ l)
    · exact ⟨h, t, rfl⟩
  rw [findWords, findWordsAux_splitOnP l [], hs]
  simp

/-- Normalizing a string with no word character at all yields the empty
string's character list on the `findWords` side. -/
theorem findWords_no_word :
    ∀ l : List Char, l.all (fun c => !isWord c) = true → findWords l = [] := by
  intro l
  induction l with
  | nil => intro _; rfl
  | cons c rest ih =>
    intro h
    rw [List.all_cons, Bool.and_eq_true] at h
    have hc : isWord c = false := by simpa using h.1
    rw [findWords, findWordsAux, hc]
    simp only [Bool.false_eq_true, if_false, List.isEmpty_nil, if_true]
    exact ih h.2

/-- A label with no ASCII letter, digit or underscore normalizes to `""`. -/
theorem normalize_attr_no_word (s : String) (h : s.data.all (fun c => !isWord c) = true) :
    normalize_attr s = "" := by
  simp only [normalize_attr, normalizeChars]
  rw [findWords_no_word s.data h, intercalate_nil]

/-- C4: for every string, `normalize_attr` equals the concatenation, joined by
single underscores, of the maximal runs of ASCII letters, digits and
underscores of the input in order (characterized independently through
`List.splitOnP` on the non-word characters, discarding the empty pieces), with
every other character discarded; in particular `normalize_attr` sends both
`"attr w/ spaces"` and `"attr-w-spaces"` to `"attr_w_spaces"`. -/
theorem C4_normalize_is_joined_maximal_runs :
    (∀ s : String,
        normalize_attr s
          = ⟨List.intercalate ['_']
              ((s.data.splitOnP fun c => !isWord c).filter fun r => !r.isEmpty)⟩)
    ∧ normalize_attr "attr w/ spaces" = normalize_attr "attr-w-spaces"
    ∧ normalize_attr "attr w/ spaces" = "attr_w_spaces" := by
  refine ⟨fun s => ?_, rfl, rfl⟩
  simp only [normalize_attr, normalizeChars]
  rw [findWords_splitOnP]

/-- C8: normalization is idempotent — normalizing an already-normalized key
returns it unchanged. -/
theorem C8_normalize_idempotent (s : String) :
    normalize_attr (normalize_attr s) = normalize_attr s := by
  show (⟨normalizeChars (normalizeChars s.data)⟩ : String) = ⟨normalizeChars s.data⟩
  exact congrArg String.mk (normalizeChars_idem s.data)

/-! ### Python values and ordered dictionaries

A `Value` is a Python value as seen by `BaseDictWrapper`: a scalar (`int` or
`str`), a raw `dict` (the only case with `type(val) is dict`), or a
`BaseDictWrapper` instance (`record`), whose payload is its `__dict__`.
Python dicts preserve insertion order; assignment updates an existing key in
place and appends a new key at the end. -/

inductive Value where
  | int : Int → Value
  | str : String → Value
  | dict : List (String × Value) → Value
  | record : List (String × Value) → Value

/-- Python dict assignment `d[k] = v`: replace the first (only) binding of `k`
keeping its position, or append `(k, v)` at the end. -/
def assocSet {α : Type} : List (String × α) → String → α → List (String × α)
  | [], k, v => [(k, v)]
  | (k0, v0) :: rest, k, v =>
    if k0 = k then (k0, v) :: rest else (k0, v0) :: assocSet rest k v

/-- Python dict lookup `d[k]` / `k in d`. -/
def assocLookup {α : Type} : List (String × α) → String → Option α
  | [], _ => none
  | (k0, v0) :: rest, k => if k0 = k then some v0 else assocLookup rest k

/-- Number of bindings of `k` in the association list (a real Python dict
always has at most one). -/
def countKey {α : Type} : List (String × α) → String → Nat
  | [], _ => 0
  | (k0, _) :: rest, k => (if k0 = k then 1 else 0) + countKey rest k

/-- Fold of dict assignments, in order. -/
def dictSetAll (store : List (String × Value)) : List (String × Value) → List (String × Value)
  | [] => store
  | (k, v) :: rest => dictSetAll (assocSet store k v) rest

mutual
/-- `__setitem__` line `if type(val) is dict: val = BaseDictWrapper(val)`: a raw
dict is wrapped into a fresh record by running the `BaseDictWrapper.__init__`
loop (`for attr in d: self[attr] = d[attr]`) from an empty store; every other
value, a `BaseDictWrapper` included, is passed through unchanged. -/
def wrapVal : Value → Value
  | .int n => .int n
  | .str s => .str s
  | .record es => .record es
  | .dict es => .record (dictSetAll [] (wrapEntries es))

/-- The per-entry effect of the `__init__` loop: each key is normalized and
each value recursively wrapped before the dict assignment. -/
def wrapEntries : List (String × Value) → List (String × Value)
  | [] => []
  | (k, v) :: rest => (normalize_attr k, wrapVal v) :: wrapEntries rest
end

/-- `BaseDictWrapper(d)`: the backing store built by feeding every entry of `d`
through `__setitem__`. -/
def fromDict (d : List (String × Value)) : List (String × Value) :=
  dictSetAll [] (wrapEntries d)

namespace BaseDictWrapper

/-- `__setitem__(key, val)`: wrap a raw-dict value, then assign under the
normalized key. -/
def setitem (store : List (String × Value)) (key : String) (val : Value) :
    List (String × Value) :=
  assocSet store (normalize_attr key) (wrapVal val)

/-- `get(key, default)`: normalized lookup falling back to `default`; a raw
dict result (stored or default) is wrapped on the fly into a fresh record. -/
def get (store : List (String × Value)) (key : String) (default : Value) : Value :=
  match assocLookup store (normalize_attr key) with
  | some elem => wrapVal elem
  | none => wrapVal default

/-- `__getitem__(key)`: normalized lookup; a missing key raises
`KeyError(key)` carrying the original key; a raw dict result is wrapped on the
fly. -/
def getitem (store : List (String × Value)) (key : String) : Except String Value :=
  match assocLookup store (normalize_attr key) with
  | some elem => .ok (wrapVal elem)
  | none => .error key

end BaseDictWrapper

/-- What Python attribute access `record.f` can produce on a
`BaseDictWrapper`: a value read from the instance `__dict__`, an attribute
resolved on the class (a bound method such as `get`, a plain class attribute
such as `_is_dict_like`, or an `object`-inherited attribute), identified here
by its name, or an `AttributeError`. -/
inductive AttrResult where
  | val : Value → AttrResult
  | classAttr : String → AttrResult
  | attrError : AttrResult

/-- The stored value an attribute access observes, if any: a class attribute
or an `AttributeError` observes no stored value. -/
def AttrResult.toOption : AttrResult → Option Value
  | .val v => some v
  | .classAttr _ => none
  | .attrError => none

/-- The data descriptors every object carries: they win over the instance
`__dict__` during attribute lookup. -/
def dataDescriptorNames : List String := ["__class__", "__dict__", "__weakref__"]

/-- The non-data attributes found on the `BaseDictWrapper` class: the class
attribute and methods defined in its body (`_is_dict_like`, `get`,
`__getitem__`, `__setitem__`, `__repr__`, `__iter__`, `keys`, `items`,
`__init__`) and the attributes inherited from `object`.  Attribute access
falls back to these when the name is missing from the instance `__dict__`. -/
def classAttrNames : List String :=
  ["_is_dict_like", "get", "keys", "items",
   "__init__", "__getitem__", "__setitem__", "__repr__", "__iter__",
   "__delattr__", "__dir__", "__doc__", "__eq__", "__format__", "__ge__",
   "__getattribute__", "__gt__", "__hash__", "__init_subclass__", "__le__",
   "__lt__", "__module__", "__ne__", "__new__", "__reduce__", "__reduce_ex__",
   "__setattr__", "__sizeof__", "__str__", "__subclasshook__"]

/-- Field-style attribute access `record.f`, following Python's attribute
protocol on a class that defines no `__getattr__`/`__getattribute__` of its
own: a data descriptor of the type wins first; then the instance `__dict__`
(no normalization, no wrapping); then the class attributes (bound methods
included); otherwise `AttributeError`. -/
def BaseDictWrapper.getattr (store : List (String × Value)) (f : String) : AttrResult :=
  if f ∈ dataDescriptorNames then .classAttr f
  else
    match assocLookup store f with
    | some v => .val v
    | none => if f ∈ classAttrNames then .classAttr f else .attrError

mutual
/-- A value is (recursively) wrapped when no raw dict occurs at any record
level: the invariant `set` maintains for everything it stores. -/
def wrappedVal : Value → Bool
  | .int _ => true
  | .str _ => true
  | .dict _ => false
  | .record es => wrappedEntries es

/-- All values of a backing store are recursively wrapped. -/
def wrappedEntries : List (String × Value) → Bool
  | [] => true
  | (_, v) :: rest => wrappedVal v && wrappedEntries rest
end

mutual
/-- An argument acceptable to `set`: every `BaseDictWrapper` nested in it (at
any depth, below raw dicts included) already satisfies the store invariant.
Raw dicts themselves are allowed — `set` is what wraps them. -/
def recOK : Value → Bool
  | .int _ => true
  | .str _ => true
  | .dict es => recOKEntries es
  | .record es => wrappedEntries es

/-- `recOK` on every value of an entry list. -/
def recOKEntries : List (String × Value) → Bool
  | [] => true
  | (_, v) :: rest => recOK v && recOKEntries rest
end

/-! ### Lemmas about dict assignment and the wrap invariant -/

theorem assocLookup_assocSet_self {α : Type} (s : List (String × α)) (k : String) (v : α) :
    assocLookup (assocSet s k v) k = some v := by
  induction s with
  | nil => simp [assocSet, assocLookup]
  | cons p rest ih =>
    obtain ⟨k0, v0⟩ := p
    by_cases h : k0 = k
    · simp [assocSet, assocLookup, h]
    · simp [assocSet, assocLookup, h, ih]

theorem countKey_assocSet_self {α : Type} (s : List (String × α)) (k : String) (v : α) :
    countKey (assocSet s k v) k = max (countKey s k) 1 := by
  induction s with
  | nil => simp [assocSet, countKey]
  | cons p rest ih =>
    obtain ⟨k0, v0⟩ := p
    by_cases h : k0 = k
    · simp only [assocSet, countKey, if_pos h]
      omega
    · simp only [assocSet, countKey, if_neg h, ih]
      omega

theorem assocLookup_wrapped (s : List (String × Value)) (k : String) (v : Value)
    (hw : wrappedEntries s = true) (hl : assocLookup s k = some v) :
    wrappedVal v = true := by
  induction s with
  | nil => simp [assocLookup] at hl
  | cons p rest ih =>
    obtain ⟨k0, v0⟩ := p
    have hw' : (wrappedVal v0 && wrappedEntries rest) = true := hw
    rw [Bool.and_eq_true] at hw'
    rw [assocLookup] at hl
    by_cases h : k0 = k
    · rw [if_pos h] at hl
      injection hl with h2
      subst h2
      exact hw'.1
    · rw [if_neg h] at hl
      exact ih hw'.2 hl

theorem wrapVal_of_wrapped (v : Value) (h : wrappedVal v = true) : wrapVal v = v := by
  cases v with
  | int n => rfl
  | str s => rfl
  | record es => rfl
  | dict es => simp [wrappedVal] at h

theorem wrappedEntries_assocSet (s : List (String × Value)) (k : String) (v : Value)
    (hs : wrappedEntries s = true) (hv : wrappedVal v = true) :
    wrappedEntries (assocSet s k v) = true := by
  induction s with
  | nil =>
    show (wrappedVal v && true) = true
    simp [hv]
  | cons p rest ih =>
    obtain ⟨k0, v0⟩ := p
    have hs' : (wrappedVal v0 && wrappedEntries rest) = true := hs
    rw [Bool.and_eq_true] at hs'
    by_cases h : k0 = k
    · rw [assocSet, if_pos h]
      show (wrappedVal v && wrappedEntries rest) = true
      simp [hv, hs'.2]
    · rw [assocSet, if_neg h]
      show (wrappedVal v0 && wrappedEntries (assocSet rest k v)) = true
      simp [hs'.1, ih hs'.2]

theorem wrappedEntries_dictSetAll (l : List (String × Value)) :
    ∀ store, wrappedEntries store = true → wrappedEntries l = true →
      wrappedEntries (dictSetAll store l) = true := by
  induction l with
  | nil => intro store hs _; exact hs
  | cons p rest ih =>
    obtain ⟨k, v⟩ := p
    intro store hs hl
    have hl' : (wrappedVal v && wrappedEntries rest) = true := hl
    rw [Bool.and_eq_true] at hl'
    exact ih (assocSet store k v) (wrappedEntries_assocSet store k v hs hl'.1) hl'.2

mutual
/-- `set` only ever stores recursively wrapped values: wrapping a `recOK`
argument yields a value with no raw dict at any record level. -/
theorem wrapVal_wrapped : ∀ v : Value, recOK v = true → wrappedVal (wrapVal v) = true
  | .int _, _ => rfl
  | .str _, _ => rfl
  | .record _, h => h
  | .dict es, h => wrappedEntries_dictSetAll (wrapEntries es) [] rfl (wrapEntries_wrapped es h)

/-- Entry-list version of `wrapVal_wrapped`. -/
theorem wrapEntries_wrapped : ∀ es : List (String × Value),
    recOKEntries es = true → wrappedEntries (wrapEntries es) = true
  | [], _ => rfl
  | (k, v) :: rest, h => by
    have h' : (recOK v && recOKEntries rest) = true := h
    rw [Bool.and_eq_true] at h'
    show (wrappedVal (wrapVal v) && wrappedEntries (wrapEntries rest)) = true
    rw [wrapVal_wrapped v h'.1, wrapEntries_wrapped rest h'.2]
    rfl
end

/-! ### The claims about the Dynamic Record -/

/-- C1: two original keys normalizing to the same string silently collide —
after `set(k1, v1)` then `set(k2, v2)` the record holds exactly one entry
under the shared normalized key, its value is `v2` (the later write wins, for
any `v2` that `set` stores as-is), no error is raised (the embedded `setitem`
is total), and reading `k2` back yields `v2`. -/
theorem C1_collision_overwrite (store : List (String × Value)) (k1 k2 : String)
    (v1 v2 d : Value) (hcol : normalize_attr k1 = normalize_attr k2)
    (hcount : countKey store (normalize_attr k2) ≤ 1)
    (hv2 : wrapVal v2 = v2) :
    countKey (BaseDictWrapper.setitem (BaseDictWrapper.setitem store k1 v1) k2 v2)
        (normalize_attr k2) = 1
    ∧ assocLookup (BaseDictWrapper.setitem (BaseDictWrapper.setitem store k1 v1) k2 v2)
        (normalize_attr k2) = some v2
    ∧ BaseDictWrapper.get (BaseDictWrapper.setitem (BaseDictWrapper.setitem store k1 v1) k2 v2)
        k2 d = v2 := by
  have h1 : assocSet store (normalize_attr k1) (wrapVal v1)
      = assocSet store (normalize_attr k2) (wrapVal v1) := by
    rw [hcol]
  have hl : assocLookup
      (BaseDictWrapper.setitem (BaseDictWrapper.setitem store k1 v1) k2 v2)
      (normalize_attr k2) = some v2 := by
    simp only [BaseDictWrapper.setitem, h1, assocLookup_assocSet_self, hv2]
  refine ⟨?_, hl, ?_⟩
  · simp only [BaseDictWrapper.setitem, h1, countKey_assocSet_self]
    omega
  · simp [BaseDictWrapper.get, hl, hv2]

/-- C1 witness: the spec's concrete collision, `set("attr .w. --spaces", 1)`
then `set("attr w/ spaces", 2)` leaves one entry and `get("attr w/ spaces")`
reads `2`. -/
theorem C1_collision_overwrite_witness :
    countKey (BaseDictWrapper.setitem
        (BaseDictWrapper.setitem [] "attr .w. --spaces" (Value.int 1))
        "attr w/ spaces" (Value.int 2)) (normalize_attr "attr w/ spaces") = 1
    ∧ assocLookup (BaseDictWrapper.setitem
        (BaseDictWrapper.setitem [] "attr .w. --spaces" (Value.int 1))
        "attr w/ spaces" (Value.int 2)) (normalize_attr "attr w/ spaces")
        = some (Value.int 2)
    ∧ BaseDictWrapper.get (BaseDictWrapper.setitem
        (BaseDictWrapper.setitem [] "attr .w. --spaces" (Value.int 1))
        "attr w/ spaces" (Value.int 2)) "attr w/ spaces" (Value.int 0) = Value.int 2 :=
  C1_collision_overwrite [] "attr .w. --spaces" "attr w/ spaces" (Value.int 1)
    (Value.int 2) (Value.int 0) rfl (by decide) rfl

/-- C5 counterexample: the claim fails at the already-normalized key `"get"`
missing from an empty record — attribute access resolves the bound method
`BaseDictWrapper.get` through the class (no error), while indexed access
raises `KeyError("get")`, so the two access paths do not observe the same
value. -/
theorem C5_counterexample :
    normalize_attr "get" = "get"
    ∧ BaseDictWrapper.getattr [] "get" = AttrResult.classAttr "get"
    ∧ BaseDictWrapper.getattr [] "get" ≠ AttrResult.attrError
    ∧ BaseDictWrapper.getitem [] "get" = Except.error "get" :=
  ⟨rfl, rfl, fun h => AttrResult.noConfusion h, rfl⟩

/-- C5 (amended): for an already-normalized key on a record whose store
satisfies the wrap invariant, provided the key is neither a data-descriptor
name nor a class attribute of `BaseDictWrapper` (these are the names on which
`record.f` resolves through the class instead of the instance `__dict__`),
field-style attribute access and indexed access observe the same value —
the same stored value on a present key — and they fail together
(`AttributeError` / `KeyError`) on a missing one. -/
theorem C5_attribute_and_index_access_agree (store : List (String × Value)) (f : String)
    (hw : wrappedEntries store = true) (hf : normalize_attr f = f)
    (hdd : f ∉ dataDescriptorNames) (hca : f ∉ classAttrNames) :
    (BaseDictWrapper.getattr store f).toOption = (BaseDictWrapper.getitem store f).toOption
    ∧ (BaseDictWrapper.getattr store f = AttrResult.attrError
        ↔ BaseDictWrapper.getitem store f = Except.error f) := by
  simp only [BaseDictWrapper.getattr, BaseDictWrapper.getitem, hf, if_neg hdd]
  cases hl : assocLookup store f with
  | none =>
    rw [if_neg hca]
    exact ⟨rfl, by simp⟩
  | some elem =>
    have he : wrapVal elem = elem :=
      wrapVal_of_wrapped elem (assocLookup_wrapped store f elem hw hl)
    exact ⟨by simp [AttrResult.toOption, Except.toOption, he], by simp⟩

/-- C5 witness at a concrete one-entry record, its normalized key being no
class-attribute name. -/
theorem C5_attribute_and_index_access_agree_witness :
    (BaseDictWrapper.getattr [("a_b", Value.int 3)] "a_b").toOption
        = (BaseDictWrapper.getitem [("a_b", Value.int 3)] "a_b").toOption
    ∧ (BaseDictWrapper.getattr [("a_b", Value.int 3)] "a_b" = AttrResult.attrError
        ↔ BaseDictWrapper.getitem [("a_b", Value.int 3)] "a_b" = Except.error "a_b") :=
  C5_attribute_and_index_access_agree [("a_b", Value.int 3)] "a_b" rfl rfl
    (by decide) (by decide)

/-- C6 counterexample: on a missing key, `get` with a raw-mapping default does
not return the supplied default — it returns a fresh `BaseDictWrapper` wrap of
it (with the default's own keys normalized), so the claim as stated fails. -/
theorem C6_counterexample :
    assocLookup ([] : List (String × Value)) (normalize_attr "missing") = none
    ∧ BaseDictWrapper.get [] "missing" (Value.dict [("a b", Value.int 1)])
        = Value.record [("a_b", Value.int 1)]
    ∧ BaseDictWrapper.get [] "missing" (Value.dict [("a b", Value.int 1)])
        ≠ Value.dict [("a b", Value.int 1)] :=
  ⟨rfl, rfl, fun h => Value.noConfusion h⟩

/-- C6 (amended): indexed access on a key whose normalized form is absent
fails with `KeyError` carrying the original key, while `get` with a default
returns the supplied default — unchanged whenever the default is not a raw
mapping, and wrapped into a fresh Dynamic Record when it is; both operations
are pure reads of the store. -/
theorem C6_missing_key_raises_and_get_returns_default (store : List (String × Value))
    (key : String) (default : Value)
    (h : assocLookup store (normalize_attr key) = none) :
    BaseDictWrapper.getitem store key = .error key
    ∧ BaseDictWrapper.get store key default = wrapVal default
    ∧ (wrappedVal default = true → BaseDictWrapper.get store key default = default) := by
  refine ⟨?_, ?_, ?_⟩
  · simp [BaseDictWrapper.getitem, h]
  · simp [BaseDictWrapper.get, h]
  · intro hd
    simp [BaseDictWrapper.get, h, wrapVal_of_wrapped default hd]

/-- C6 witness: missing key `"missing"` on a one-entry record, integer
default. -/
theorem C6_missing_key_witness :
    BaseDictWrapper.getitem [("x", Value.int 1)] "missing" = .error "missing"
    ∧ BaseDictWrapper.get [("x", Value.int 1)] "missing" (Value.int 7)
        = wrapVal (Value.int 7)
    ∧ (wrappedVal (Value.int 7) = true →
        BaseDictWrapper.get [("x", Value.int 1)] "missing" (Value.int 7) = Value.int 7) :=
  C6_missing_key_raises_and_get_returns_default [("x", Value.int 1)] "missing"
    (Value.int 7) rfl

/-- C7: `set` wraps a raw mapping into a fresh Dynamic Record at assignment
time (the stored value is `record (fromDict d)`, built recursively), preserves
the recursive no-raw-dict store invariant, and stores a value that is already
a Dynamic Record as-is, without re-wrapping. -/
theorem C7_set_wraps_raw_mappings_at_assignment (store : List (String × Value))
    (k : String) (v : Value) (d r : List (String × Value))
    (hstore : wrappedEntries store = true) (hv : recOK v = true) :
    wrappedEntries (BaseDictWrapper.setitem store k v) = true
    ∧ assocLookup (BaseDictWrapper.setitem store k (.dict d)) (normalize_attr k)
        = some (.record (fromDict d))
    ∧ wrapVal (.record r) = .record r
    ∧ assocLookup (BaseDictWrapper.setitem store k (.record r)) (normalize_attr k)
        = some (.record r) :=
  ⟨wrappedEntries_assocSet store (normalize_attr k) (wrapVal v) hstore (wrapVal_wrapped v hv),
   assocLookup_assocSet_self store (normalize_attr k) (Value.record (fromDict d)),
   rfl,
   assocLookup_assocSet_self store (normalize_attr k) (Value.record r)⟩

/-- C7 witness: storing a nested raw mapping and an already-wrapped record
into an empty record. -/
theorem C7_set_wraps_witness :
    wrappedEntries (BaseDictWrapper.setitem [] "k" (Value.dict [("a b", Value.int 1)])) = true
    ∧ assocLookup (BaseDictWrapper.setitem [] "k" (Value.dict [("a b", Value.int 1)]))
        (normalize_attr "k") = some (Value.record (fromDict [("a b", Value.int 1)]))
    ∧ wrapVal (Value.record [("x", Value.int 2)]) = Value.record [("x", Value.int 2)]
    ∧ assocLookup (BaseDictWrapper.setitem [] "k" (Value.record [("x", Value.int 2)]))
        (normalize_attr "k") = some (Value.record [("x", Value.int 2)]) :=
  C7_set_wraps_raw_mappings_at_assignment [] "k" (Value.dict [("a b", Value.int 1)])
    [("a b", Value.int 1)] [("x", Value.int 2)] rfl rfl

/-- C10: a label with no ASCII letter, digit or underscore normalizes to the
empty string, so two such distinct labels collide on the single empty-string
key and the later `set` overwrites the earlier one. -/
theorem C10_no_word_labels_collide_on_empty_key (store : List (String × Value))
    (l1 l2 : String) (v1 v2 : Value) (_hne : l1 ≠ l2)
    (h1 : l1.data.all (fun c => !isWord c) = true)
    (h2 : l2.data.all (fun c => !isWord c) = true)
    (hcount : countKey store "" ≤ 1) (hv2 : wrapVal v2 = v2) :
    normalize_attr l1 = "" ∧ normalize_attr l2 = ""
    ∧ countKey (BaseDictWrapper.setitem (BaseDictWrapper.setitem store l1 v1) l2 v2) "" = 1
    ∧ assocLookup (BaseDictWrapper.setitem (BaseDictWrapper.setitem store l1 v1) l2 v2) ""
        = some v2 := by
  have e1 := normalize_attr_no_word l1 h1
  have e2 := normalize_attr_no_word l2 h2
  refine ⟨e1, e2, ?_, ?_⟩
  · simp only [BaseDictWrapper.setitem, e1, e2, countKey_assocSet_self]
    omega
  · simp only [BaseDictWrapper.setitem, e1, e2, assocLookup_assocSet_self, hv2]

/-- C10 witness: the two all-punctuation labels `"---"` and `"!!!"`. -/
theorem C10_no_word_labels_witness :
    normalize_attr "---" = "" ∧ normalize_attr "!!!" = ""
    ∧ countKey (BaseDictWrapper.setitem
        (BaseDictWrapper.setitem [] "---" (Value.int 1)) "!!!" (Value.int 2)) "" = 1
    ∧ assocLookup (BaseDictWrapper.setitem
        (BaseDictWrapper.setitem [] "---" (Value.int 1)) "!!!" (Value.int 2)) ""
        = some (Value.int 2) :=
  C10_no_word_labels_collide_on_empty_key [] "---" "!!!" (Value.int 1) (Value.int 2)
    (by decide) (by decide) (by decide) (by decide) rfl

/-! ### The PyYAML constructor registry and the tag-registration helpers

A YAML node as handed to a constructor: an explicit tag plus kind-shaped
content (the loader's `construct_mapping`, `construct_sequence` and
`construct_scalar` are modelled as already-decoded content). -/

inductive NodeContent where
  | scalar : String → NodeContent
  | mapping : List (String × Value) → NodeContent
  | sequence : List Value → NodeContent

structure Node where
  tag : String
  content : NodeContent

/-- Python exceptions escaping a constructor. -/
inductive YamlError where
  | notAvailable (tag : String) (reason : String)
  | constructorError
  | attributeError

/-- A registered constructor: `constructor(loader, node)`. -/
def ConstructorFn : Type := Node → Except YamlError Value

/-- `yaml.Loader.yaml_constructors`: the tag-indexed constructor table. -/
def Registry : Type := List (String × ConstructorFn)

/-- Modelled from PyYAML: `yaml.add_constructor(tag, constructor, Loader)`
performs `Loader.yaml_constructors[tag] = constructor` — a plain dict
assignment that silently overwrites any existing binding and never fails. -/
def add_constructor (reg : Registry) (tag : String) (f : ConstructorFn) : Registry :=
  assocSet reg tag f

/-- Decoding a node with an explicit tag: look the tag up in the constructor
table and run the constructor (`none` when the tag is unknown). -/
def decodeNode (reg : Registry) (node : Node) : Option (Except YamlError Value) :=
  (assocLookup reg node.tag).map (fun f => f node)

/-- A class handed to the `yaml_map` decorator, as far as the decorator
inspects it: its `__name__`, the optional mangled `__yaml_tag` override, and
its `from_map` — either a classmethod (`ismethod(Cls.from_map)` is true) or a
plain function called on a default-constructed instance. -/
structure MapClass where
  name : String
  yamlTag : Option String
  fromMapIsClassmethod : Bool
  from_map : List (String × Value) → Value
  instFromMap : List (String × Value) → Value

/-- `'!' + getattr(Cls, yaml_tag_mangle(Cls), Cls.__name__)`. -/
def MapClass.tag (C : MapClass) : String := "!" ++ C.yamlTag.getD C.name

/-- The `constructor` closure of `yaml_map` (source lines 39-44): construct
the mapping, then call `Cls.from_map(map)` if `from_map` is a classmethod and
`Cls().from_map(map)` otherwise. -/
def mapConstructor (C : MapClass) : ConstructorFn := fun node =>
  match node.content with
  | .mapping m =>
    if C.fromMapIsClassmethod then .ok (C.from_map m) else .ok (C.instFromMap m)
  | _ => .error .constructorError

/-- The registration performed by the `yaml_map` decorator:
`yaml.add_constructor(tag, constructor, Loader)`.  (The representer side,
`yaml.add_representer`, concerns encoding only and is not consulted by any
decode path.) -/
def yaml_map (reg : Registry) (C : MapClass) : Registry :=
  add_constructor reg C.tag (mapConstructor C)

/-- A class handed to the `yaml_scalar` decorator: its name and tag override,
whether `ismethod(Cls.from_scalar)` holds, the classmethod `Cls.from_scalar`,
the instance method `Cls().from_scalar`, and the instance method
`Cls().from_seq` when the class has one (`none` models the absence of a
`from_seq` attribute, on which the attribute access raises). -/
structure ScalarClass where
  name : String
  yamlTag : Option String
  fromScalarIsClassmethod : Bool
  from_scalar : String → Value
  instFromScalar : String → Value
  instFromSeq : Option (String → Value)

/-- `'!' + getattr(Cls, yaml_tag_mangle(Cls), Cls.__name__)`. -/
def ScalarClass.tag (C : ScalarClass) : String := "!" ++ C.yamlTag.getD C.name

/-- The `constructor` closure of `yaml_scalar` (source lines 91-96),
transcribed as written: the classmethod branch calls `Cls.from_scalar(scalar)`
but the plain-method branch calls `Cls().from_seq(scalar)` — not
`from_scalar` — raising `AttributeError` when the class has no `from_seq`. -/
def scalarConstructor (C : ScalarClass) : ConstructorFn := fun node =>
  match node.content with
  | .scalar s =>
    if C.fromScalarIsClassmethod then .ok (C.from_scalar s)
    else
      match C.instFromSeq with
      | some f => .ok (f s)
      | none => .error .attributeError
  | _ => .error .constructorError

/-- The registration performed by the `yaml_scalar` decorator. -/
def yaml_scalar (reg : Registry) (C : ScalarClass) : Registry :=
  add_constructor reg C.tag (scalarConstructor C)

/-- `yaml_not_available_tag(tag, reason)` (source lines 230-233): register,
under `'!' + tag`, a constructor that unconditionally raises
`NotAvailableTagError(tag, reason)`. -/
def yaml_not_available_tag (reg : Registry) (tag reason : String) : Registry :=
  add_constructor reg ("!" ++ tag) (fun _ => .error (.notAvailable tag reason))

/-! ### The claims about the registry -/

/-- C9: after `yaml_not_available_tag(tag, reason)`, decoding any node
carrying the tag `!tag` fails with `NotAvailableTagError` holding exactly the
registered tag and reason, whatever registry was in place before and whatever
the node's content is. -/
theorem C9_unavailable_tag_surfaces_reason (reg : Registry) (tag reason : String)
    (node : Node) (h : node.tag = "!" ++ tag) :
    decodeNode (yaml_not_available_tag reg tag reason) node
      = some (.error (.notAvailable tag reason)) := by
  simp only [decodeNode, yaml_not_available_tag, add_constructor, h,
    assocLookup_assocSet_self, Option.map_some']

/-- C9 witness: `register_unavailable("Legacy", "removed in v3")` then a
`!Legacy` node fails with reason `"removed in v3"`. -/
theorem C9_unavailable_tag_witness :
    decodeNode (yaml_not_available_tag [] "Legacy" "removed in v3")
        ⟨"!Legacy", .scalar "x"⟩
      = some (.error (.notAvailable "Legacy" "removed in v3")) :=
  C9_unavailable_tag_surfaces_reason [] "Legacy" "removed in v3"
    ⟨"!Legacy", .scalar "x"⟩ rfl

/-- C3 counterexample: registering the same tag twice does not fail — both
registrations complete (the second silently overwrites the first), and
decoding afterwards runs the second constructor; no `DuplicateTagError`
exists anywhere in the code. -/
theorem C3_counterexample :
    decodeNode (yaml_map (yaml_map []
        ⟨"A", none, true, fun _ => Value.int 1, fun _ => Value.int 1⟩)
        ⟨"A", none, true, fun _ => Value.int 2, fun _ => Value.int 2⟩)
      ⟨"!A", .mapping []⟩ = some (.ok (Value.int 2))
    ∧ decodeNode (yaml_map []
        ⟨"A", none, true, fun _ => Value.int 1, fun _ => Value.int 1⟩)
      ⟨"!A", .mapping []⟩ = some (.ok (Value.int 1)) :=
  ⟨rfl, rfl⟩

/-- C3 (amended): registering a second class under the same tag completes
without any error and silently overwrites the earlier binding — the registry
afterwards maps the shared tag to the second constructor, and decode
dispatches to it. -/
theorem C3_duplicate_registration_overwrites (reg : Registry) (C1c C2c : MapClass)
    (h : C1c.tag = C2c.tag) (node : Node) (hn : node.tag = C1c.tag) :
    assocLookup (yaml_map (yaml_map reg C1c) C2c) C1c.tag = some (mapConstructor C2c)
    ∧ decodeNode (yaml_map (yaml_map reg C1c) C2c) node
        = some (mapConstructor C2c node) := by
  constructor
  · rw [h]
    simp only [yaml_map, add_constructor, assocLookup_assocSet_self]
  · simp only [decodeNode, hn, h, yaml_map, add_constructor,
      assocLookup_assocSet_self, Option.map_some']

/-- C3 witness: two classes named `A`, constructors distinguishable by their
results, registered in sequence. -/
theorem C3_duplicate_registration_witness :
    assocLookup (yaml_map (yaml_map []
        ⟨"A", none, true, fun _ => Value.int 1, fun _ => Value.int 1⟩)
        ⟨"A", none, true, fun _ => Value.int 2, fun _ => Value.int 2⟩)
      (MapClass.tag ⟨"A", none, true, fun _ => Value.int 1, fun _ => Value.int 1⟩)
      = some (mapConstructor ⟨"A", none, true, fun _ => Value.int 2, fun _ => Value.int 2⟩)
    ∧ decodeNode (yaml_map (yaml_map []
        ⟨"A", none, true, fun _ => Value.int 1, fun _ => Value.int 1⟩)
        ⟨"A", none, true, fun _ => Value.int 2, fun _ => Value.int 2⟩)
      ⟨"!A", .mapping []⟩
      = some (mapConstructor ⟨"A", none, true, fun _ => Value.int 2, fun _ => Value.int 2⟩
          ⟨"!A", .mapping []⟩) :=
  C3_duplicate_registration_overwrites []
    ⟨"A", none, true, fun _ => Value.int 1, fun _ => Value.int 1⟩
    ⟨"A", none, true, fun _ => Value.int 2, fun _ => Value.int 2⟩ rfl
    ⟨"!A", .mapping []⟩ rfl

/-- C2: evidence against the claim, at the code's own words.  For a class
whose `from_scalar` is a plain method, the installed constructor does not
invoke `from_scalar` on a default-constructed instance: it evaluates
`Cls().from_seq(scalar)` — raising `AttributeError` when the class (as the
decorator's docstring requires) only exposes `from_scalar`/`to_scalar`, and
silently calling the unrelated `from_seq` when one exists.  Only the
classmethod branch invokes `from_scalar`. -/
theorem C2_scalar_decode_plain_method_bug :
    decodeNode (yaml_scalar []
        ⟨"S", none, false, fun s => Value.str s, fun s => Value.str s, none⟩)
      ⟨"!S", .scalar "x"⟩ = some (.error .attributeError)
    ∧ decodeNode (yaml_scalar []
        ⟨"S", none, false, fun s => Value.str s, fun s => Value.str s,
          some (fun _ => Value.int 0)⟩)
      ⟨"!S", .scalar "x"⟩ = some (.ok (Value.int 0))
    ∧ decodeNode (yaml_scalar []
        ⟨"S", none, true, fun s => Value.str s, fun s => Value.str s, none⟩)
      ⟨"!S", .scalar "x"⟩ = some (.ok (Value.str "x")) :=
  ⟨rfl, rfl, rfl⟩

end RegisterTag
